import Mathlib

/-!
Verification development for the mdp-toolkit repository.

The sources under scrutiny are `mdp/__init__.py` (numeric backend
selection), `mdp/contrib/shogun_svm_classifier.py` (the Shogun SVM
wrapper node), and the documented contracts of the node/flow/parallel
core (`signal_node`, `linear_flows`, `extension`, `parallel`), whose
implementation files are not part of this snapshot and are therefore
modelled from the specification text.

All machine integers and floats of the source are modelled with `Nat`
and `Rat`; Python dictionaries are association lists; Python object
identity, where it matters (the class-attribute aliasing of
`ShogunSVMClassifier`), is modelled with an explicit heap of addresses.
-/

namespace MdpInit

/-- A record produced by `config.ExternalDepFound` / `config.ExternalDepFailed`
(`config._ExternalDep` in `mdp/__init__.py`): exactly one of `version` and
`failmsg` is set, and `__nonzero__` (truthiness) is `failmsg is None`. -/
structure ExternalDep where
  version : Option String
  failmsg : Option String
deriving Repr, DecidableEq

/-- Python truthiness of an `_ExternalDep`: `self.failmsg is None`. -/
def ExternalDep.truthy (d : ExternalDep) : Bool := d.failmsg.isNone

/-- `config.ExternalDepFound name version`. -/
def depFound (v : String) : ExternalDep := ⟨some v, none⟩

/-- `config.ExternalDepFailed name failmsg`. -/
def depFailed (m : String) : ExternalDep := ⟨none, some m⟩

/-- The part of `mdp.config` state written by the numeric-backend selection
code (`mdp/__init__.py`, lines 182-239), together with `numx_description`. -/
structure NumxConfig where
  has_scipy : ExternalDep
  has_numpy : ExternalDep
  numx_description : String
deriving Repr, DecidableEq

/-- Shallow embedding of the backend-selection code of `mdp/__init__.py`
(lines 182-239).  `mdpnumx` is the value of the MDPNUMX environment
variable (`none` when unset);
`scipyImportable` / `numpyImportable` say whether `import scipy` /
`import numpy` succeed; `sv` / `nv` stand for the version strings they
would report.  The result is `.error` when the module raises
`ImportError` during import, `.ok` with the final config otherwise.
A Python string is truthy iff it is nonempty, so `_USR_LABEL and ...`
is modelled with `usrSet`. -/
def selectBackend (mdpnumx : Option String) (scipyImportable numpyImportable : Bool)
    (sv nv : String) : Except String NumxConfig :=
  let usr := mdpnumx.getD ""
  let usrSet := !usr.isEmpty
  if usrSet && !(usr == "numpy" || usr == "scipy") then
    .error "Numerical backend not supported. Supported backends: numpy, scipy."
  else
    let scipyForcedOff := usrSet && !(usr == "scipy")
    let has_scipy : ExternalDep :=
      if scipyForcedOff then depFailed ("MDPNUMX set to " ++ usr)
      else if scipyImportable then depFound sv
      else depFailed "ImportError: scipy"
    let descAfterScipy : Option String :=
      if scipyForcedOff then none
      else if scipyImportable then some "scipy" else none
    let numpyForcedOff := usrSet && !(usr == "numpy")
    let has_numpy : ExternalDep :=
      if numpyForcedOff then depFailed ("MDPNUMX set to " ++ usr)
      else if descAfterScipy.isNone then
        if numpyImportable then depFound nv else depFailed "ImportError: numpy"
      else depFailed "scipy is preferred"
    let desc : Option String :=
      if numpyForcedOff then descAfterScipy
      else if descAfterScipy.isNone then
        if numpyImportable then some "numpy" else descAfterScipy
      else descAfterScipy
    match desc with
    | none => .error "Could not import any of the numeric backends."
    | some d => .ok ⟨has_scipy, has_numpy, d⟩

end MdpInit

namespace MdpInit

/-- C8 (counterexample): the claim says scipy is preferred whenever both
backends are importable, numpy then being marked failed with reason
"scipy is preferred".  With MDPNUMX set to "numpy" and both backends
both importable, the import succeeds with numpy truthy and scipy marked
failed, so scipy is not preferred and numpy carries a different failure
message — the parenthetical of the claim is false as stated. -/
theorem selectBackend_mdpnumx_numpy_overrides_preference :
    selectBackend (some "numpy") true true "0.7.2" "1.5.1" =
      .ok ⟨depFailed "MDPNUMX set to numpy", depFound "1.5.1", "numpy"⟩ ∧
    (depFailed "MDPNUMX set to numpy").truthy = false ∧
    (depFound "1.5.1").truthy = true ∧
    (depFound "1.5.1").failmsg ≠ some "scipy is preferred" :=
  ⟨rfl, rfl, rfl, by decide⟩

/-- C8 (amended): whenever the backend selection of `mdp/__init__.py`
completes without `ImportError`, exactly one of `config.has_scipy` and
`config.has_numpy` is truthy; when MDPNUMX is unset (or empty) and both
backends are importable, scipy is chosen and numpy is marked failed with
reason "scipy is preferred"; when neither backend is importable, and when
MDPNUMX names a backend other than numpy and scipy, import raises
`ImportError` instead of completing. -/
theorem selectBackend_amended (mdpnumx : Option String) (sOk nOk : Bool) (sv nv : String) :
    (∀ cfg, selectBackend mdpnumx sOk nOk sv nv = .ok cfg →
        cfg.has_scipy.truthy = !cfg.has_numpy.truthy) ∧
    ((mdpnumx.getD "").isEmpty = true → sOk = true → nOk = true →
        selectBackend mdpnumx sOk nOk sv nv =
          .ok ⟨depFound sv, depFailed "scipy is preferred", "scipy"⟩) ∧
    (sOk = false → nOk = false → ∃ e, selectBackend mdpnumx sOk nOk sv nv = .error e) ∧
    (∀ usr, mdpnumx = some usr → usr ≠ "" → usr ≠ "numpy" → usr ≠ "scipy" →
        ∃ e, selectBackend mdpnumx sOk nOk sv nv = .error e) := by
  refine ⟨?_, ?_, ?_, ?_⟩
  · intro cfg h
    cases hE : (mdpnumx.getD "").isEmpty <;>
      cases hN : (mdpnumx.getD "" == "numpy") <;>
        cases hS : (mdpnumx.getD "" == "scipy") <;>
          cases sOk <;> cases nOk <;>
            simp only [selectBackend, hE, hN, hS, Bool.not_true, Bool.not_false,
              Bool.and_true, Bool.and_false, Bool.true_and, Bool.false_and,
              Bool.or_true, Bool.or_false, Bool.true_or, Bool.false_or,
              if_true, if_false, Option.isNone_none, Option.isNone_some,
              reduceIte, Except.ok.injEq, reduceCtorEq] at h <;>
            first
              | exact absurd h (by simp)
              | (subst h; rfl)
  · intro hE hs hn
    subst hs; subst hn
    simp only [selectBackend, hE, Bool.not_true, Bool.false_and, Bool.not_false,
      Bool.and_false, Bool.true_and, if_true, if_false, Option.isNone_some, reduceIte]
    rfl
  · intro hs hn
    subst hs; subst hn
    cases hE : (mdpnumx.getD "").isEmpty <;>
      cases hN : (mdpnumx.getD "" == "numpy") <;>
        cases hS : (mdpnumx.getD "" == "scipy") <;>
          simp only [selectBackend, hE, hN, hS, Bool.not_true, Bool.not_false,
            Bool.and_true, Bool.and_false, Bool.true_and, Bool.false_and,
            Bool.or_true, Bool.or_false, Bool.true_or, Bool.false_or,
            if_true, if_false, Option.isNone_none, Option.isNone_some, reduceIte] <;>
          exact ⟨_, rfl⟩
  · intro usr hm h1 h2 h3
    subst hm
    have hE : usr.isEmpty = false := by
      rw [Bool.eq_false_iff]
      simpa [String.isEmpty_iff] using h1
    have hN : (usr == "numpy") = false := by simp [h2]
    have hS : (usr == "scipy") = false := by simp [h3]
    simp only [selectBackend, Option.getD_some, hE, hN, hS, Bool.not_false,
      Bool.or_false, Bool.and_true, Bool.true_and, reduceIte]
    exact ⟨_, rfl⟩

/-- Witness for `selectBackend_amended`: at MDPNUMX unset with both backends
both importable, the theorem yields the concrete scipy-preferred outcome. -/
theorem selectBackend_amended_witness :
    selectBackend none true true "0.7.2" "1.5.1" =
      .ok ⟨depFound "0.7.2", depFailed "scipy is preferred", "scipy"⟩ :=
  (selectBackend_amended none true true "0.7.2" "1.5.1").2.1 rfl rfl rfl

end MdpInit

namespace Shogun

/-- A Python dict with string keys and numeric values, as an association
list in insertion order (`ShogunSVMClassifier` keeps numeric classifier
parameters in such dicts). -/
abbrev PyDict := List (String × ℚ)

/-- Python dict item assignment `d[k] = v`: overwrite the existing entry
in place, or append a new one. -/
def dictSet (d : PyDict) (k : String) (v : ℚ) : PyDict :=
  if d.any (fun p => p.1 == k) then
    d.map (fun p => if p.1 == k then (k, v) else p)
  else d ++ [(k, v)]

/-- Python `d.update(other)`: assign every item of `other` in order. -/
def dictUpdate (d : PyDict) (other : PyDict) : PyDict :=
  other.foldl (fun acc p => dictSet acc p.1 p.2) d

/-- A heap of Python dict objects addressed by identity, so that aliasing
(two references to one dict object) is observable. -/
abbrev Heap := Nat → PyDict

/-- In-place mutation of the dict object at `addr`. -/
def heapSet (h : Heap) (addr : Nat) (d : PyDict) : Heap :=
  fun a => if a = addr then d else h a

/-- The dict literal initializing the class attribute
`ShogunSVMClassifier.default_parameters` (source lines 201-204). -/
def default_parameters : PyDict := [("C", 1), ("epsilon", 1/1000)]

/-- The state relevant to C9: the heap of dict objects and the address
the class attribute `ShogunSVMClassifier.default_parameters` refers to. -/
structure ClassState where
  heap : Heap
  defaultParametersAddr : Nat

/-- At class-definition time the class attribute refers to a fresh dict
object holding `default_parameters`. -/
def initialClassState : ClassState :=
  ⟨fun _ => default_parameters, 0⟩

/-- An instance, as far as `classifier_options` is concerned: the address
of the dict object that attribute references. -/
structure SVMInstance where
  classifierOptionsAddr : Nat
deriving Repr, DecidableEq

/-- Shallow embedding of the `classifier_options` handling in
`ShogunSVMClassifier.__init__` (source lines 233-239): `None` is
normalized to `{}`; `self.classifier_options = self.default_parameters`
binds the instance attribute to the very dict object of the class
attribute (no copy); `self.classifier_options.update(classifier_options)`
then mutates that object in place.  The construction of the external
Shogun classifier and the `set_classifier_param` loop (which act on the
Shogun library object, not on these dicts) are omitted. -/
def shogunInit (st : ClassState) (classifierOptions : Option PyDict) :
    ClassState × SVMInstance :=
  let opts := classifierOptions.getD []
  let addr := st.defaultParametersAddr
  let updated := dictUpdate (st.heap addr) opts
  (⟨heapSet st.heap addr updated, st.defaultParametersAddr⟩, ⟨addr⟩)

/-- C9: `ShogunSVMClassifier.__init__` aliases `self.classifier_options`
to the class attribute `default_parameters` and updates it in place, so a
construction whose options actually change some value mutates the
class-level defaults, and every subsequently constructed instance
observes the mutated dict instead of the original defaults. -/
theorem shogunInit_mutates_class_defaults (st : ClassState) (opts : PyDict)
    (hchange : dictUpdate (st.heap st.defaultParametersAddr) opts ≠
      st.heap st.defaultParametersAddr) :
    (shogunInit st (some opts)).2.classifierOptionsAddr = st.defaultParametersAddr ∧
    (shogunInit st (some opts)).1.heap st.defaultParametersAddr =
      dictUpdate (st.heap st.defaultParametersAddr) opts ∧
    (shogunInit st (some opts)).1.heap st.defaultParametersAddr ≠
      st.heap st.defaultParametersAddr ∧
    (shogunInit (shogunInit st (some opts)).1 none).1.heap
        (shogunInit (shogunInit st (some opts)).1 none).2.classifierOptionsAddr =
      dictUpdate (st.heap st.defaultParametersAddr) opts := by
  refine ⟨rfl, ?_, ?_, ?_⟩
  · simp [shogunInit, heapSet]
  · simpa [shogunInit, heapSet] using hchange
  · simp [shogunInit, heapSet, dictUpdate]

/-- Witness for `shogunInit_mutates_class_defaults`: constructing one
instance with options mapping C to 5 changes the class-level defaults. -/
theorem shogunInit_mutates_class_defaults_witness :
    (shogunInit initialClassState (some [("C", 5)])).1.heap
        initialClassState.defaultParametersAddr ≠
      initialClassState.heap initialClassState.defaultParametersAddr :=
  (shogunInit_mutates_class_defaults initialClassState [("C", 5)] (by decide)).2.2.1

/-- A Python value appearing in kernel option dicts and lists. -/
inductive PyVal
  | num (q : ℚ)
  | bool (b : Bool)
deriving Repr, DecidableEq

/-- The errors `set_kernel` can surface. -/
inductive PyError
  | unboundLocalError (name : String)
  | attributeError (name : String)
  | nodeException (msg : String)
  | notImplementedError (msg : String)
deriving Repr, DecidableEq

/-- An `_OrderedDict` (source lines 45-70) as an ordered association
list; a value of `none` encodes a parameter with no default (a 1-tuple
item such as a lone size entry of PyramidChi2). -/
abbrev OrdDict := List (String × Option PyVal)

/-- One step of `_OrderedDict.update`: overwrite the value of an existing
key in place, or append a new key. -/
def odSet (d : OrdDict) (k : String) (v : Option PyVal) : OrdDict :=
  if d.any (fun p => p.1 == k) then
    d.map (fun p => if p.1 == k then (k, v) else p)
  else d ++ [(k, v)]

/-- `_OrderedDict.update(other)`: assign every entry of `other` in order. -/
def odUpdate (d : OrdDict) (other : OrdDict) : OrdDict :=
  other.foldl (fun acc p => odSet acc p.1 p.2) d

/-- The class attribute `ShogunSVMClassifier.kernel_parameters`
(source lines 207-215): for each known kernel name, the ordered
constructor arguments with their defaults. -/
def kernel_parameters : List (String × OrdDict) :=
  [("Chi2Kernel", [("size", some (.num 10)), ("width", some (.num (14/10)))]),
   ("GaussianKernel", [("size", some (.num 10)), ("width", some (.num (19/10)))]),
   ("LinearKernel", []),
   ("PolyKernel", [("size", some (.num 10)), ("degree", some (.num 3)),
                   ("inhomogene", some (.bool true))]),
   ("PyramidChi2", [("size", none), ("num_cells2", none),
                    ("weights_foreach_cell2", none),
                    ("width_computation_type2", none), ("width2", none)]),
   ("SigmoidKernel", [("size", some (.num 10)), ("gamma", some (.num 1)),
                      ("coef0", some (.num 0))])]

/-- The `kernel_options` argument of `set_kernel`: Python `None`, a dict
of option values, or an ordered list of constructor arguments. -/
inductive KernelOpts
  | pyNone
  | dict (d : List (String × PyVal))
  | list (l : List PyVal)
deriving Repr, DecidableEq

/-- Shallow embedding of `ShogunSVMClassifier.set_kernel` (source lines
265-296).  `sgKernelAttr` models attribute lookup on the external
`shogun.Kernel` module: for a resolvable name it yields the kernel
constructor, itself modelled as a function from the positional argument
list to a kernel or a `NotImplementedError`.  The local variable
`options` is assigned only under
`kernel_name in ShogunSVMClassifier.kernel_parameters and not
isinstance(kernel_options, list)`, which the embedding tracks with an
`Option`; reading it unassigned at `kernel_meth(*options)` is Python's
UnboundLocalError.  A `NotImplementedError` from the constructor is
re-raised as `mdp.NodeException` (lines 291-295). -/
def set_kernel {K : Type}
    (sgKernelAttr : String → Option (List (Option PyVal) → Except PyError K))
    (kernel_name : String) (kernel_options : KernelOpts) : Except PyError K :=
  let kOpts : KernelOpts := match kernel_options with
    | .pyNone => .dict []
    | o => o
  let options : Option (List (Option PyVal)) :=
    match kernel_parameters.lookup kernel_name, kOpts with
    | some defaults, .dict d =>
        some ((odUpdate (odUpdate [] defaults)
          (d.map (fun p => (p.1, some p.2)))).map Prod.snd)
    | _, _ => none
  match sgKernelAttr kernel_name with
  | none => .error (.attributeError kernel_name)
  | some ctor =>
    match options with
    | none => .error (.unboundLocalError "options")
    | some opts =>
      match ctor opts with
      | .error (.notImplementedError m) => .error (.nodeException m)
      | r => r

/-- C10: for a `kernel_name` absent from
`ShogunSVMClassifier.kernel_parameters`, and likewise whenever
`kernel_options` is a list, `set_kernel` reads the never-assigned local
`options`, so (provided the name resolves on the shogun module at all)
the call fails with UnboundLocalError before any kernel is constructed —
whatever the kernel constructor would do. -/
theorem set_kernel_unbound_local {K : Type}
    (sgKernelAttr : String → Option (List (Option PyVal) → Except PyError K))
    (kernel_name : String) (kernel_options : KernelOpts)
    (ctor : List (Option PyVal) → Except PyError K)
    (hres : sgKernelAttr kernel_name = some ctor)
    (h : kernel_parameters.lookup kernel_name = none ∨
      ∃ l, kernel_options = KernelOpts.list l) :
    set_kernel sgKernelAttr kernel_name kernel_options =
      .error (.unboundLocalError "options") := by
  rcases h with h | ⟨l, rfl⟩
  · rcases kernel_options with _ | d | l <;>
      (unfold set_kernel; rw [hres, h])
  · unfold set_kernel
    rw [hres]
    cases hl : kernel_parameters.lookup kernel_name <;> rfl

/-- Witness for `set_kernel_unbound_local`: a kernel name unknown to the
parameter table, resolving to a total constructor, still fails with
UnboundLocalError. -/
theorem set_kernel_unbound_local_witness :
    set_kernel (K := Unit) (fun _ => some (fun _ => Except.ok ()))
        "CustomKernel" KernelOpts.pyNone =
      Except.error (PyError.unboundLocalError "options") :=
  set_kernel_unbound_local (fun _ => some (fun _ => Except.ok ()))
    "CustomKernel" KernelOpts.pyNone (fun _ => Except.ok ()) rfl
    (Or.inl (by decide))

end Shogun

namespace NodeCore

/-- The error taxonomy of the node/flow core (spec section 7). -/
inductive MDPError
  | trainingFinished
  | notTrainable
  | inconsistentDimension
  | trainingIncomplete
  | noJob
  | extensionError
deriving Repr, DecidableEq

/-- A data chunk: its dimensionality, numeric element type, and an
abstract payload identifier standing for the actual array contents. -/
structure Chunk where
  dim : Nat
  dtype : String
  payload : Nat
deriving Repr, DecidableEq

/-- Modelled from the spec: the trainable-unit lifecycle of
`mdp.signal_node.Node`, whose implementation file is not under `src/`
(only `mdp/__init__.py` imports it).  Attributes follow the spec data
model: input/output dimensionality (optional, fixed once known), element
type (optional, fixed once known), the trainable flag, the number of
declared training phases, the number of phases already closed, and the
accumulated state of the open phase (the payloads trained so far). -/
structure NodeState where
  numPhases : Nat
  phasesCompleted : Nat
  inputDim : Option Nat
  outputDim : Option Nat
  dtype : Option String
  trainable : Bool
  acc : List Nat
deriving Repr, DecidableEq

/-- Training is finished once every declared phase has been closed. -/
def NodeState.isTrained (s : NodeState) : Bool :=
  s.numPhases ≤ s.phasesCompleted

/-- Does the chunk conflict with the dimensionality or element type the
node has already fixed?  Unset attributes constrain nothing (they are
inferred lazily from the first training input). -/
def NodeState.mismatch (s : NodeState) (c : Chunk) : Bool :=
  (match s.inputDim with | some d => c.dim != d | none => false) ||
  (match s.dtype with | some t => c.dtype != t | none => false)

/-- Modelled from the spec: `Node.train` — fails with `NotTrainableError`
for non-trainable nodes, `TrainingFinishedError` once all phases are
closed, `InconsistentDimensionError` on a dimensionality/type conflict,
and otherwise fixes unset dimensions from the chunk and accumulates it
into the open phase.  The pair returns the error raised (if any) together
with the node state after the call. -/
def NodeState.train (s : NodeState) (c : Chunk) : Option MDPError × NodeState :=
  if s.trainable = false then (some .notTrainable, s)
  else if s.isTrained then (some .trainingFinished, s)
  else if s.mismatch c then (some .inconsistentDimension, s)
  else (none, { s with inputDim := some c.dim, dtype := some c.dtype,
                       acc := c.payload :: s.acc })

/-- Modelled from the spec: `Node.stop_training` — finalizes the open
phase (clearing its accumulator into phase output) and advances to the
next phase or to trained; fails with `TrainingFinishedError` when called
with no open phase. -/
def NodeState.stop_training (s : NodeState) : Option MDPError × NodeState :=
  if s.trainable = false || s.isTrained then (some .trainingFinished, s)
  else (none, { s with phasesCompleted := s.phasesCompleted + 1, acc := [] })

/-- Modelled from the spec: `Node.execute` — permitted only in state
trained (or for non-trainable nodes), checks dimensionality/type, and
never mutates the node. -/
def NodeState.execute (s : NodeState) (c : Chunk) : Option MDPError × NodeState :=
  if s.trainable && !s.isTrained then (some .trainingIncomplete, s)
  else if s.mismatch c then (some .inconsistentDimension, s)
  else (none, s)

/-- The data a node emits for a chunk once trained: its declared output
dimensionality (the input one if unset), same type and payload. -/
def NodeState.outChunk (s : NodeState) (c : Chunk) : Chunk :=
  ⟨s.outputDim.getD c.dim, c.dtype, c.payload⟩

/-- `k` successive `stop_training` calls, stopping at the first error. -/
def stopN (s : NodeState) : Nat → Option MDPError × NodeState
  | 0 => (none, s)
  | k + 1 =>
    match stopN s k with
    | (some e, s') => (some e, s')
    | (none, s') => s'.stop_training

theorem stopN_le (s : NodeState) (ht : s.trainable = true)
    (h0 : s.phasesCompleted = 0) (hacc : s.acc = []) :
    ∀ k, k ≤ s.numPhases → stopN s k = (none, { s with phasesCompleted := k }) := by
  intro k
  induction k with
  | zero =>
    intro _
    simp [stopN, ← h0]
  | succ k ih =>
    intro hk
    have hs := ih (Nat.le_of_succ_le hk)
    simp only [stopN, hs, NodeState.stop_training, ht, NodeState.isTrained]
    have hlt : ¬ s.numPhases ≤ k := Nat.not_le_of_lt (Nat.lt_of_succ_le hk)
    simp [hlt, hacc]

/-- C3: a trainable node declaring `numPhases` phases, fresh (no phase
closed, empty accumulator), is not trained after any `k < numPhases`
calls to `stop_training`, is trained after exactly `numPhases` calls, and
the next call fails with `TrainingFinishedError`. -/
theorem node_stop_training_phase_count (s : NodeState)
    (ht : s.trainable = true) (h0 : s.phasesCompleted = 0) (hacc : s.acc = []) :
    (∀ k, k < s.numPhases →
        (stopN s k).1 = none ∧ (stopN s k).2.isTrained = false) ∧
    ((stopN s s.numPhases).1 = none ∧ (stopN s s.numPhases).2.isTrained = true) ∧
    (stopN s (s.numPhases + 1)).1 = some MDPError.trainingFinished := by
  refine ⟨?_, ?_, ?_⟩
  · intro k hk
    rw [stopN_le s ht h0 hacc k (Nat.le_of_lt hk)]
    constructor
    · rfl
    · simp [NodeState.isTrained, Nat.not_le_of_lt hk]
  · rw [stopN_le s ht h0 hacc s.numPhases (Nat.le_refl _)]
    exact ⟨rfl, by simp [NodeState.isTrained]⟩
  · simp only [stopN, stopN_le s ht h0 hacc s.numPhases (Nat.le_refl _)]
    simp [NodeState.stop_training, NodeState.isTrained]

/-- Witness for `node_stop_training_phase_count`: a fresh two-phase node
rejects a third `stop_training` call. -/
theorem node_stop_training_phase_count_witness :
    (stopN ⟨2, 0, some 10, some 10, some "float64", true, []⟩ 3).1 =
      some MDPError.trainingFinished :=
  (node_stop_training_phase_count ⟨2, 0, some 10, some 10, some "float64", true, []⟩
    rfl rfl rfl).2.2

/-- C4: once dimensionality/type are fixed, a conflicting chunk makes
`train` (on a node with an open phase) and `execute` (on a node allowed
to execute) fail with `InconsistentDimensionError`, returning the node
state unchanged. -/
theorem node_mismatch_rejected_unchanged (s : NodeState) (c : Chunk)
    (hm : s.mismatch c = true) :
    (s.trainable = true → s.isTrained = false →
        s.train c = (some MDPError.inconsistentDimension, s)) ∧
    (s.trainable = false ∨ s.isTrained = true →
        s.execute c = (some MDPError.inconsistentDimension, s)) := by
  constructor
  · intro ht hti
    simp [NodeState.train, ht, hti, hm]
  · intro h
    rcases h with h | h <;> simp [NodeState.execute, h, hm]

/-- Witness for `node_mismatch_rejected_unchanged`: a node fixed at input
dimension 10 rejects a 9-dimensional chunk without mutation. -/
theorem node_mismatch_rejected_unchanged_witness :
    NodeState.train ⟨1, 0, some 10, some 10, some "float64", true, []⟩ ⟨9, "float64", 0⟩ =
      (some MDPError.inconsistentDimension,
        ⟨1, 0, some 10, some 10, some "float64", true, []⟩) :=
  (node_mismatch_rejected_unchanged
    ⟨1, 0, some 10, some 10, some "float64", true, []⟩ ⟨9, "float64", 0⟩ (by decide)).1 rfl rfl

/-- Train a node over one pass of its data sequence, stopping at the
first error; the state at the moment of failure is returned with it. -/
def trainChunks : NodeState → List Chunk → Option MDPError × NodeState
  | s, [] => (none, s)
  | s, c :: rest =>
    match s.train c with
    | (some e, s') => (some e, s')
    | (none, s') => trainChunks s' rest

/-- One training phase as the Sequential Flow drives it (spec 4.3): all
chunks of the data sequence, then `stop_training`. -/
def trainOnePhase (s : NodeState) (cs : List Chunk) : Option MDPError × NodeState :=
  match trainChunks s cs with
  | (some e, s') => (some e, s')
  | (none, s') => s'.stop_training

/-- Repeat the data sequence once per remaining phase. -/
def trainPhasesGo : Nat → NodeState → List Chunk → Option MDPError × NodeState
  | 0, s, _ => (none, s)
  | fuel + 1, s, cs =>
    match trainOnePhase s cs with
    | (some e, s') => (some e, s')
    | (none, s') => trainPhasesGo fuel s' cs

/-- Modelled from the spec: the per-unit part of `mdp.linear_flows.Flow.train`
(not under `src/`): a non-trainable node is skipped; a trainable one is
trained phase by phase over its data sequence until it reaches trained,
or until an error interrupts it. -/
def trainNodeFully (s : NodeState) (cs : List Chunk) : Option MDPError × NodeState :=
  if s.trainable = false then (none, s)
  else trainPhasesGo (s.numPhases - s.phasesCompleted) s cs

/-- The flow training loop: nodes strictly in order, each over its own
data sequence; on the first error the full flow state at that moment
(trained nodes, the failing node's partial state, untouched later nodes)
travels with the error. -/
def flowTrainAux : List NodeState → List NodeState → List (List Chunk) →
    Except (MDPError × List NodeState) (List NodeState)
  | done, [], _ => .ok done.reverse
  | done, u :: us, dss =>
    match trainNodeFully u (dss.headD []) with
    | (none, u') => flowTrainAux (u' :: done) us dss.tail
    | (some e, upart) => .error (e, done.reverse ++ upart :: us)

/-- Modelled from the spec: `Flow.train` with an optional crash-recovery
target (spec 4.3): on an error during training, the entire flow state is
persisted (when recovery is configured) before the error is re-raised. -/
def flowTrain (recovery : Bool) (us : List NodeState) (dss : List (List Chunk)) :
    Except (MDPError × Option (List NodeState)) (List NodeState) :=
  match flowTrainAux [] us dss with
  | .ok r => .ok r
  | .error (e, snap) => .error (e, if recovery then some snap else none)

/-- The flow execution loop: data through each node in order; `execute`
never mutates node state. -/
def flowExecuteGo : List NodeState → Chunk → Option MDPError × Chunk
  | [], c => (none, c)
  | u :: us, c =>
    match u.execute c with
    | (some e, _) => (some e, c)
    | (none, _) => flowExecuteGo us (u.outChunk c)

/-- Modelled from the spec: `Flow.execute` with an optional crash-recovery
target: on an error the (unmutated) flow state is persisted before the
error is re-raised. -/
def flowExecute (recovery : Bool) (us : List NodeState) (c : Chunk) :
    Except (MDPError × Option (List NodeState)) Chunk :=
  match flowExecuteGo us c with
  | (some e, _) => .error (e, if recovery then some us else none)
  | (none, out) => .ok out

theorem train_preserves_counters (s : NodeState) (c : Chunk) :
    (s.train c).2.numPhases = s.numPhases ∧
    (s.train c).2.phasesCompleted = s.phasesCompleted ∧
    (s.train c).2.trainable = s.trainable := by
  unfold NodeState.train
  split <;> [skip; split <;> [skip; split]] <;> simp

theorem trainChunks_preserves_counters :
    ∀ (cs : List Chunk) (s : NodeState),
      (trainChunks s cs).2.numPhases = s.numPhases ∧
      (trainChunks s cs).2.phasesCompleted = s.phasesCompleted ∧
      (trainChunks s cs).2.trainable = s.trainable := by
  intro cs
  induction cs with
  | nil => intro s; exact ⟨rfl, rfl, rfl⟩
  | cons c rest ih =>
    intro s
    have hp := train_preserves_counters s c
    unfold trainChunks
    cases htr : s.train c with
    | mk oe s' =>
      rw [htr] at hp
      cases oe with
      | none =>
        obtain ⟨h1, h2, h3⟩ := ih s'
        exact ⟨h1.trans hp.1, h2.trans hp.2.1, h3.trans hp.2.2⟩
      | some e => exact hp

theorem stop_training_ok (s s' : NodeState)
    (h : s.stop_training = (none, s')) :
    s'.numPhases = s.numPhases ∧
    s'.phasesCompleted = s.phasesCompleted + 1 ∧
    s'.trainable = s.trainable := by
  unfold NodeState.stop_training at h
  split at h
  · simp at h
  · simp only [Prod.mk.injEq, true_and] at h
    subst h
    exact ⟨rfl, rfl, rfl⟩

theorem trainOnePhase_ok (s s₁ : NodeState) (cs : List Chunk)
    (h : trainOnePhase s cs = (none, s₁)) :
    s₁.numPhases = s.numPhases ∧
    s₁.phasesCompleted = s.phasesCompleted + 1 ∧
    s₁.trainable = s.trainable := by
  unfold trainOnePhase at h
  cases htc : trainChunks s cs with
  | mk oe s₂ =>
    rw [htc] at h
    cases oe with
    | some e => simp at h
    | none =>
      have hcs := trainChunks_preserves_counters cs s
      rw [htc] at hcs
      have hst := stop_training_ok s₂ s₁ h
      exact ⟨hst.1.trans hcs.1, by rw [hst.2.1, hcs.2.1], hst.2.2.trans hcs.2.2⟩

theorem trainPhasesGo_trained :
    ∀ (fuel : Nat) (s : NodeState) (cs : List Chunk) (s' : NodeState),
      s.trainable = true → s.numPhases ≤ s.phasesCompleted + fuel →
      trainPhasesGo fuel s cs = (none, s') →
      s'.isTrained = true ∨ s'.trainable = false := by
  intro fuel
  induction fuel with
  | zero =>
    intro s cs s' ht hle h
    left
    simp only [trainPhasesGo, Prod.mk.injEq, true_and] at h
    subst h
    simpa [NodeState.isTrained] using hle
  | succ fuel ih =>
    intro s cs s' ht hle h
    simp only [trainPhasesGo] at h
    cases hop : trainOnePhase s cs with
    | mk oe s₁ =>
      rw [hop] at h
      cases oe with
      | some e => simp at h
      | none =>
        have hop2 := trainOnePhase_ok s s₁ cs hop
        exact ih s₁ cs s' (hop2.2.2.trans ht)
          (by rw [hop2.1, hop2.2.1]; omega) h

theorem trainNodeFully_ok (u : NodeState) (cs : List Chunk) (u' : NodeState)
    (h : trainNodeFully u cs = (none, u')) :
    u'.isTrained = true ∨ u'.trainable = false := by
  unfold trainNodeFully at h
  by_cases ht : u.trainable = false
  · rw [if_pos ht] at h
    simp only [Prod.mk.injEq, true_and] at h
    subst h
    exact Or.inr ht
  · rw [if_neg ht] at h
    exact trainPhasesGo_trained _ u cs u'
      (by revert ht; cases u.trainable <;> simp) (by omega) h

theorem flowTrainAux_error :
    ∀ (us done : List NodeState) (dss : List (List Chunk))
      (e : MDPError) (snap : List NodeState),
      flowTrainAux done us dss = .error (e, snap) →
      ∃ preT k fpart ufail,
        snap = done.reverse ++ preT ++ fpart :: us.drop (k + 1) ∧
        preT.length = k ∧
        (∀ u ∈ preT, u.isTrained = true ∨ u.trainable = false) ∧
        us[k]? = some ufail ∧
        trainNodeFully ufail ((dss.drop k).headD []) = (some e, fpart) := by
  intro us
  induction us with
  | nil =>
    intro done dss e snap h
    simp [flowTrainAux] at h
  | cons u us ih =>
    intro done dss e snap h
    unfold flowTrainAux at h
    cases htr : trainNodeFully u (dss.headD []) with
    | mk oe u₁ =>
      rw [htr] at h
      cases oe with
      | some e₀ =>
        simp only [Except.error.injEq, Prod.mk.injEq] at h
        obtain ⟨rfl, rfl⟩ := h
        exact ⟨[], 0, u₁, u, by simp, rfl, by simp, by simp, htr⟩
      | none =>
        obtain ⟨preT, k, fpart, ufail, hsnap, hlen, hpre, hget, hfail⟩ :=
          ih (u₁ :: done) dss.tail e snap h
        refine ⟨u₁ :: preT, k + 1, fpart, ufail, ?_, by simp [hlen], ?_, ?_, ?_⟩
        · rw [hsnap]
          simp [List.reverse_cons, List.append_assoc]
        · intro v hv
          rcases List.mem_cons.mp hv with rfl | hv
          · exact trainNodeFully_ok u (dss.headD []) v htr
          · exact hpre v hv
        · simpa using hget
        · have hdrop : dss.drop (k + 1) = dss.tail.drop k := by
            cases dss <;> simp
          rw [hdrop]
          exact hfail

/-- C5: with a crash-recovery target configured, a failing training run
persists the entire flow state — every node before the failure point
fully trained (or non-trainable and skipped), the failing node with its
partial phase state, and every later node untouched — alongside the
original error; a failing execution run persists the (unmutated) full
flow state alongside the original error. -/
theorem flow_crash_recovery_complete :
    (∀ (us : List NodeState) (dss : List (List Chunk)) (e : MDPError)
        (osnap : Option (List NodeState)),
      flowTrain true us dss = .error (e, osnap) →
      ∃ preT k fpart ufail,
        osnap = some (preT ++ fpart :: us.drop (k + 1)) ∧
        preT.length = k ∧
        (∀ u ∈ preT, u.isTrained = true ∨ u.trainable = false) ∧
        us[k]? = some ufail ∧
        trainNodeFully ufail ((dss.drop k).headD []) = (some e, fpart)) ∧
    (∀ (us : List NodeState) (c : Chunk) (e : MDPError)
        (osnap : Option (List NodeState)),
      flowExecute true us c = .error (e, osnap) → osnap = some us) := by
  constructor
  · intro us dss e osnap h
    unfold flowTrain at h
    cases haux : flowTrainAux [] us dss with
    | ok r => rw [haux] at h; simp at h
    | error p =>
      rw [haux] at h
      obtain ⟨e₀, snap⟩ := p
      simp only [if_true, Except.error.injEq, Prod.mk.injEq] at h
      obtain ⟨preT, k, fpart, ufail, hsnap, hlen, hpre, hget, hfail⟩ :=
        flowTrainAux_error us [] dss e₀ snap haux
      exact ⟨preT, k, fpart, ufail, by simp [← h.2, hsnap, ← h.1], hlen, hpre, hget,
        by rw [← h.1]; exact hfail⟩
  · intro us c e osnap h
    unfold flowExecute at h
    cases hgo : flowExecuteGo us c with
    | mk oe out =>
      rw [hgo] at h
      cases oe with
      | some e₀ => simp only [if_true, Except.error.injEq, Prod.mk.injEq] at h; exact h.2.symm
      | none => simp at h

/-- Witness for `flow_crash_recovery_complete`: a three-node flow whose
second node receives a chunk of the wrong dimensionality persists the
full snapshot with the original dimension error. -/
theorem flow_crash_recovery_complete_witness :
    ∃ preT k fpart ufail,
      (some [⟨1, 1, some 2, some 2, some "f", true, []⟩,
             ⟨1, 0, some 2, some 2, some "f", true, []⟩,
             ⟨1, 0, some 2, some 2, some "f", true, []⟩] :
          Option (List NodeState)) =
        some (preT ++ fpart :: ([⟨1, 0, some 2, some 2, some "f", true, []⟩,
          ⟨1, 0, some 2, some 2, some "f", true, []⟩,
          ⟨1, 0, some 2, some 2, some "f", true, []⟩] : List NodeState).drop (k + 1)) ∧
      preT.length = k ∧
      (∀ u ∈ preT, u.isTrained = true ∨ u.trainable = false) ∧
      ([⟨1, 0, some 2, some 2, some "f", true, []⟩,
        ⟨1, 0, some 2, some 2, some "f", true, []⟩,
        ⟨1, 0, some 2, some 2, some "f", true, []⟩] : List NodeState)[k]? = some ufail ∧
      trainNodeFully ufail
        ((([[⟨2, "f", 0⟩], [⟨3, "f", 1⟩], [⟨2, "f", 2⟩]] :
            List (List Chunk)).drop k).headD []) =
        (some MDPError.inconsistentDimension, fpart) :=
  flow_crash_recovery_complete.1
    [⟨1, 0, some 2, some 2, some "f", true, []⟩,
     ⟨1, 0, some 2, some 2, some "f", true, []⟩,
     ⟨1, 0, some 2, some 2, some "f", true, []⟩]
    [[⟨2, "f", 0⟩], [⟨3, "f", 1⟩], [⟨2, "f", 2⟩]]
    MDPError.inconsistentDimension
    (some [⟨1, 1, some 2, some 2, some "f", true, []⟩,
           ⟨1, 0, some 2, some 2, some "f", true, []⟩,
           ⟨1, 0, some 2, some 2, some "f", true, []⟩])
    rfl

end NodeCore

namespace Scheduler

/-- Modelled from the spec: the Parallel Scheduler state (spec section 3),
`mdp.parallel.ParallelFlow` not being under `src/` (only its test file
is): the index of the unit under parallel training, the
`is_parallel_training` flag, the pending job queue, and the buffer of
results not yet merged.  `J` is the type of job closures, `R` of partial
results. -/
structure SchedulerState (J R : Type) where
  currentNode : Nat
  isParallelTraining : Bool
  pendingJobs : List J
  resultBuffer : List R
deriving Repr, DecidableEq

/-- `job_available()`: at least one job is ready to hand out. -/
def jobAvailable {J R : Type} (s : SchedulerState J R) : Bool :=
  !s.pendingJobs.isEmpty

/-- Modelled from the spec: `get_job()` — returns one job closure and
removes it from the pending queue; fails with `NoJobError` when none is
available.  It is a total function of the state: it never blocks. -/
def getJob {J R : Type} (s : SchedulerState J R) :
    Except NodeCore.MDPError J × SchedulerState J R :=
  match s.pendingJobs with
  | [] => (.error .noJob, s)
  | j :: rest => (.ok j, { s with pendingJobs := rest })

/-- C6: when no job is available, `get_job` fails with `NoJobError` and
leaves the scheduler state unchanged; when one is available, it returns
the front job closure and removes exactly it from the pending queue
(every other component of the state unchanged). -/
theorem getJob_contract {J R : Type} (s : SchedulerState J R) :
    (jobAvailable s = false →
        getJob s = (.error NodeCore.MDPError.noJob, s)) ∧
    (jobAvailable s = true →
        ∃ j rest, s.pendingJobs = j :: rest ∧
          getJob s = (.ok j, { s with pendingJobs := rest })) := by
  constructor
  · intro h
    cases hp : s.pendingJobs with
    | nil => simp [getJob, hp]
    | cons j rest => simp [jobAvailable, hp] at h
  · intro h
    cases hp : s.pendingJobs with
    | nil => simp [jobAvailable, hp] at h
    | cons j rest => exact ⟨j, rest, rfl, by simp [getJob, hp]⟩

/-- Witness for `getJob_contract`: an empty queue yields `NoJobError`
with the state intact, and a one-job queue hands that job out. -/
theorem getJob_contract_witness :
    getJob (⟨0, true, [], []⟩ : SchedulerState Nat Nat) =
      (.error NodeCore.MDPError.noJob, ⟨0, true, [], []⟩) ∧
    (∃ j rest, ([7] : List Nat) = j :: rest ∧
      getJob (⟨0, true, [7], []⟩ : SchedulerState Nat Nat) =
        (.ok j, { (⟨0, true, [7], []⟩ : SchedulerState Nat Nat) with
                    pendingJobs := rest })) :=
  ⟨(getJob_contract ⟨0, true, [], []⟩).1 rfl,
   (getJob_contract ⟨0, true, [7], []⟩).2 rfl⟩

end Scheduler

namespace Extensions

/-- Modelled from the spec: the Capability Extension Registry
(`mdp.extension`, not under `src/`; `mdp/__init__.py` lines 334-341
only import its API).  `registered` maps an extension name to the method
names it adds to Unit types; `active` is the list of currently active
extension names. -/
structure ExtensionRegistry where
  registered : List (String × List String)
  active : List String
deriving Repr, DecidableEq

/-- The extra methods Units expose under the currently active set —
the observable "Unit behavior" of the registry. -/
def availableMethods (reg : ExtensionRegistry) : List String :=
  ((reg.registered.filter (fun p => reg.active.contains p.1)).map Prod.snd).flatten

/-- Modelled from the spec: `activate_extension` — activating an
already-active extension is a no-op. -/
def activateExtension (name : String) (reg : ExtensionRegistry) : ExtensionRegistry :=
  if reg.active.contains name then reg
  else { reg with active := name :: reg.active }

/-- Modelled from the spec: `deactivate_extension` — deactivating an
extension that is not active fails with `ExtensionError`. -/
def deactivateExtension (name : String) (reg : ExtensionRegistry) :
    Except NodeCore.MDPError ExtensionRegistry :=
  if reg.active.contains name then
    .ok { reg with active := reg.active.erase name }
  else .error .extensionError

/-- C7: activating an extension a second time is a no-op — the registry,
in particular its active set and the methods Units expose, is unchanged —
and deactivating an extension that is not active fails with
`ExtensionError`. -/
theorem extension_toggle_contract (reg : ExtensionRegistry) (name : String) :
    activateExtension name (activateExtension name reg) = activateExtension name reg ∧
    availableMethods (activateExtension name (activateExtension name reg)) =
      availableMethods (activateExtension name reg) ∧
    (reg.active.contains name = false →
        deactivateExtension name reg = .error NodeCore.MDPError.extensionError) := by
  have h1 : activateExtension name (activateExtension name reg) =
      activateExtension name reg := by
    unfold activateExtension
    by_cases h : reg.active.contains name = true
    · rw [if_pos h, if_pos h]
    · rw [if_neg h]
      have h2 : ({ reg with active := name :: reg.active } :
          ExtensionRegistry).active.contains name = true := by simp
      rw [if_pos h2]
  refine ⟨h1, by rw [h1], ?_⟩
  intro h
  unfold deactivateExtension
  have hne : ¬(reg.active.contains name = true) := by rw [h]; simp
  rw [if_neg hne]

/-- Witness for `extension_toggle_contract`: deactivating the inactive
extension "parallel" fails with `ExtensionError`. -/
theorem extension_toggle_contract_witness :
    deactivateExtension "parallel" ⟨[("parallel", ["fork", "join"])], []⟩ =
      .error NodeCore.MDPError.extensionError :=
  (extension_toggle_contract ⟨[("parallel", ["fork", "join"])], []⟩ "parallel").2.2 rfl

end Extensions

namespace ParallelProto

/-- Modelled from the spec: `use_results` merging (spec 4.5,
`mdp.parallel.ParallelFlow` not under `src/`): the caller supplies a
collection of partial results obtained from previously issued jobs, and
the scheduler folds them into the accumulated state with the Unit's
per-phase merge operation. -/
def useResults {A : Type} (merge : A → A → A) (acc : A) (results : List A) : A :=
  results.foldl merge acc

/-- C1: for a merge operation that is associative and commutative (the
Job invariant of the spec data model), merging the job results of one
training phase in any permutation, and in sub-batches of any size
through repeated `use_results` calls, finalizes to the same trained
parameters as merging all results at once. -/
theorem useResults_order_and_batching_independent {A P : Type}
    (merge : A → A → A) (finalize : A → P) (e : A)
    (hcomm : ∀ a b, merge a b = merge b a)
    (hassoc : ∀ a b c, merge (merge a b) c = merge a (merge b c))
    (results : List A) (batches : List (List A))
    (hperm : batches.flatten.Perm results) :
    finalize (batches.foldl (useResults merge) e) =
      finalize (useResults merge e results) := by
  have hjoin : ∀ (bs : List (List A)) (a : A),
      bs.foldl (useResults merge) a = useResults merge a bs.flatten := by
    intro bs
    induction bs with
    | nil => intro a; rfl
    | cons b bs ih =>
      intro a
      simp only [List.foldl_cons, List.flatten_cons, useResults, List.foldl_append]
      exact ih (useResults merge a b)
  rw [hjoin]
  congr 1
  haveI : Std.Associative merge := ⟨hassoc⟩
  haveI : Std.Commutative merge := ⟨hcomm⟩
  exact hperm.foldl_op_eq

/-- Witness for `useResults_order_and_batching_independent`: summing
accumulators, two batches in permuted order equal the all-at-once merge. -/
theorem useResults_order_and_batching_independent_witness :
    id (([[2], [3, 1]] : List (List Nat)).foldl (useResults Nat.add) 0) =
      id (useResults Nat.add 0 [1, 2, 3]) :=
  useResults_order_and_batching_independent Nat.add id 0
    Nat.add_comm Nat.add_assoc [1, 2, 3] [[2], [3, 1]] (by decide)

/-- Modelled from the spec: one training phase of a Unit as the parallel
protocol sees it: `contrib s d` is the partial result a job computes for
chunk `d` from a fork of the unit state `s`; `merge` and `empty` combine
partial results; `finalize` is the stop_training step folding the merged
accumulator into the unit state. -/
structure TrainPhase (D S A : Type) where
  contrib : S → D → A
  merge : A → A → A
  empty : A
  finalize : S → A → S

/-- Modelled from the spec: a Unit as the schedulers see it — trainable
and parallel-capable flags, its training phases, its internal state
(trained parameters), and its execution function. -/
structure ParUnit (D S A : Type) where
  trainable : Bool
  parallelCapable : Bool
  phases : List (TrainPhase D S A)
  state : S
  run : S → D → D

/-- Sequential training of one phase (Sequential Flow, spec 4.3): every
chunk of the sequence accumulated in order by repeated `train` calls,
then the phase is closed by `stop_training`. -/
def trainPhaseSeq {D S A : Type} (ph : TrainPhase D S A) (s : S) (ds : List D) : S :=
  ph.finalize s (ds.foldl (fun a d => ph.merge a (ph.contrib s d)) ph.empty)

/-- Sequential training of a whole unit: all phases in order over the
same data sequence; non-trainable units are skipped. -/
def trainUnitSeq {D S A : Type} (u : ParUnit D S A) (ds : List D) : ParUnit D S A :=
  if u.trainable then
    { u with state := u.phases.foldl (fun s ph => trainPhaseSeq ph s ds) u.state }
  else u

/-- The job results the scheduler's poll loop collects for one phase:
one job per chunk, each a pure function of the forked state and its
chunk, gathered in issue order. -/
def phaseJobResults {D S A : Type} (ph : TrainPhase D S A) (s : S) (ds : List D) :
    List A :=
  ds.map (ph.contrib s)

/-- Parallel training of one phase through the poll/merge loop: all job
results merged by `use_results`, then `stop_training` (spec 4.5). -/
def trainPhasePar {D S A : Type} (ph : TrainPhase D S A) (s : S) (ds : List D) : S :=
  ph.finalize s (useResults ph.merge ph.empty (phaseJobResults ph s ds))

/-- Modelled from the spec: per-unit training as the Parallel Scheduler
drives it — job-based for parallel-capable units, and a transparent
fallback to buffering the data and ordinary sequential training for
units without the capability (spec 4.5). -/
def trainUnitPar {D S A : Type} (u : ParUnit D S A) (ds : List D) : ParUnit D S A :=
  if !u.trainable then u
  else if u.parallelCapable then
    { u with state := u.phases.foldl (fun s ph => trainPhasePar ph s ds) u.state }
  else trainUnitSeq u ds

/-- Executing an already-trained pipeline prefix on one chunk. -/
def execUnits {D S A : Type} (us : List (ParUnit D S A)) (d : D) : D :=
  us.foldl (fun x u => u.run u.state x) d

/-- The flow training loop, shared by both drivers: units strictly in
order, each trained by `trainOne` on its own data sequence routed
through the already-trained units before it; `none` marks the absent
sequence of a non-trainable unit. -/
def flowTrainWith {D S A : Type}
    (trainOne : ParUnit D S A → List D → ParUnit D S A) :
    List (ParUnit D S A) → List (ParUnit D S A) → List (Option (List D)) →
    List (ParUnit D S A)
  | done, [], _ => done.reverse
  | done, u :: us, dss =>
    let ds := ((dss.headD none).getD []).map (execUnits done.reverse)
    flowTrainWith trainOne (trainOne u ds :: done) us dss.tail

/-- Training a pipeline with the Sequential Flow's synchronous driver. -/
def flowTrainSeq {D S A : Type} (us : List (ParUnit D S A))
    (dss : List (Option (List D))) : List (ParUnit D S A) :=
  flowTrainWith trainUnitSeq [] us dss

/-- Training a pipeline with the Parallel Scheduler's poll/merge loop. -/
def flowTrainPar {D S A : Type} (us : List (ParUnit D S A))
    (dss : List (Option (List D))) : List (ParUnit D S A) :=
  flowTrainWith trainUnitPar [] us dss

theorem trainUnitPar_eq_seq {D S A : Type} (u : ParUnit D S A) (ds : List D) :
    trainUnitPar u ds = trainUnitSeq u ds := by
  have hfun : (fun (s : S) (ph : TrainPhase D S A) => trainPhasePar ph s ds) =
      fun s ph => trainPhaseSeq ph s ds := by
    funext s ph
    unfold trainPhasePar trainPhaseSeq useResults phaseJobResults
    rw [List.foldl_map]
  unfold trainUnitPar trainUnitSeq
  by_cases ht : u.trainable <;> by_cases hp : u.parallelCapable <;>
    simp [ht, hp, hfun, trainUnitSeq]

/-- C2: a pipeline mixing parallel-capable and non-parallel-capable
units, trained through the Parallel Scheduler's poll/merge loop, ends
with trained parameters equal to those of the same units trained on
identical data through the Sequential Flow's synchronous driver. -/
theorem flowTrainPar_eq_flowTrainSeq {D S A : Type} (us : List (ParUnit D S A))
    (dss : List (Option (List D))) :
    flowTrainPar us dss = flowTrainSeq us dss := by
  unfold flowTrainPar flowTrainSeq
  have hgen : ∀ (us done : List (ParUnit D S A)) (dss : List (Option (List D))),
      flowTrainWith trainUnitPar done us dss =
        flowTrainWith trainUnitSeq done us dss := by
    intro us
    induction us with
    | nil => intro done dss; rfl
    | cons u us ih =>
      intro done dss
      unfold flowTrainWith
      simp only [trainUnitPar_eq_seq]
      exact ih _ _
  exact hgen us [] dss

end ParallelProto
